import Mathlib

/-!
Verification development for the debug-genie repository.

The repository's core is a semantic-memory knowledge store
(`src/src/engine/memory_manager.py`), a cosine-similarity matcher
(`src/similarity_engine.py`), a response validator
(`src/src/agents/ai_analyzer.py`), and a staged investigation pipeline
(`src/src/agents/investigation_graph.py`).  The Python code is shallowly
embedded below: dicts become structures, JSON-absent vs JSON-null is
modelled with nested `Option` where the code distinguishes them, Python
floats become `ℚ` (exact arithmetic) except for cosine similarity whose
square roots live in `ℝ`, and raising exceptions becomes `Except`.
-/

/-- A normalized case record as stored in `ticket_memory.json` after
`save_memory` / `submit_feedback` shaped it (Phase 5 schema).
`Option String` fields model JSON-nullable string values (`none` = null);
`last_feedback_at = none` models the key being absent. -/
structure CaseRecord where
  case_number : String
  text : String
  embedding : List ℚ
  ai_root_cause : Option String
  ai_resolution : Option String
  analyst_root_cause : Option String
  analyst_resolution : Option String
  verified : Bool
  reliability_score : ℚ
  feedback_count : ℕ
  last_feedback_at : Option String
deriving DecidableEq, Repr

/-! ## Similarity engine (`src/similarity_engine.py`) -/

/-- `np.dot` on two 1-d arrays of the same length (the engine only ever
reaches the dot product when the lengths agree, see `cosine_similarity`). -/
def dotQ (a b : List ℚ) : ℚ := (List.zipWith (· * ·) a b).sum

/-- Sum of squares; `np.linalg.norm v` is `Real.sqrt (normSqQ v)`. -/
def normSqQ (v : List ℚ) : ℚ := (v.map fun x => x * x).sum

/-- The cosine value computed by `SimilarityEngine.cosine_similarity` once
both vectors are present and of equal length: returns `0.0` when either
norm is zero, else dot product over the product of norms. -/
noncomputable def cosVal (a b : List ℚ) : ℝ :=
  if Real.sqrt (normSqQ a) = 0 ∨ Real.sqrt (normSqQ b) = 0 then 0
  else ((dotQ a b : ℚ) : ℝ) / (Real.sqrt (normSqQ a) * Real.sqrt (normSqQ b))

/-- `SimilarityEngine.cosine_similarity`.  `none` input models Python
`None` (the guard returns `0.0` before touching numpy).  When both vectors
are present, `np.dot` raises `ValueError` for 1-d arrays of different
lengths, which is modelled as `Except.error`. -/
noncomputable def cosine_similarity (v1 v2 : Option (List ℚ)) : Except String ℝ :=
  match v1, v2 with
  | none, _ => .ok 0
  | _, none => .ok 0
  | some a, some b =>
    if a.length ≠ b.length then .error "shapes not aligned"
    else .ok (cosVal a b)

/-- The scanning loop of `find_most_similar_semantic`: running best match
and best score, updated on strictly greater scores; an exception from
`cosine_similarity` propagates. -/
noncomputable def scanBest (q : Option (List ℚ)) :
    List CaseRecord → Option CaseRecord × ℝ → Except String (Option CaseRecord × ℝ)
  | [], acc => .ok acc
  | e :: rest, (bm, bs) =>
    match cosine_similarity q (some e.embedding) with
    | .error msg => .error msg
    | .ok s => scanBest q rest (if s > bs then (some e, s) else (bm, bs))

/-- `SimilarityEngine.find_most_similar_semantic`: scans all entries from
`(None, 0.0)`, then returns the best pair if `best_score >= threshold`,
else `(None, 0.0)`.  `threshold` is the engine's constructor parameter
(default `0.80`). -/
noncomputable def find_most_similar_semantic (threshold : ℝ) (q : Option (List ℚ))
    (entries : List CaseRecord) : Except String (Option CaseRecord × ℝ) :=
  match scanBest q entries (none, 0) with
  | .error msg => .error msg
  | .ok (bm, bs) => .ok (if bs ≥ threshold then (bm, bs) else (none, 0))

/-! ## Knowledge store (`src/src/engine/memory_manager.py`) -/

/-- A raw JSON record as read by `MemoryManager._load_memory` before
migration.  Outer `Option` = is the key present, inner `Option` = is the
value null. -/
structure RawEntry where
  root_cause : Option (Option String)
  resolution : Option (Option String)
  ai_root_cause : Option (Option String)
  ai_resolution : Option (Option String)
  analyst_root_cause : Option (Option String)
  analyst_resolution : Option (Option String)
  verified : Option (Option Bool)
  reliability_score : Option (Option ℚ)
  feedback_count : Option (Option ℤ)
deriving DecidableEq, Repr

/-- The schema-migration loop body of `MemoryManager._load_memory`
(lines 20–34): each newer key that is absent is backfilled; present keys
(even null-valued ones) are left alone.  `entry.get("root_cause", "N/A")`
returns the stored value (possibly null) when the key exists and the
string `"N/A"` otherwise. -/
def migrateEntry (e : RawEntry) : RawEntry :=
  { e with
    ai_root_cause :=
      if e.ai_root_cause.isSome then e.ai_root_cause
      else some (e.root_cause.getD (some "N/A")),
    ai_resolution :=
      if e.ai_resolution.isSome then e.ai_resolution
      else some (e.resolution.getD (some "N/A")),
    analyst_root_cause :=
      if e.analyst_root_cause.isSome then e.analyst_root_cause else some none,
    analyst_resolution :=
      if e.analyst_resolution.isSome then e.analyst_resolution else some none,
    verified :=
      if e.verified.isSome then e.verified else some (some false),
    reliability_score :=
      if e.reliability_score.isSome then e.reliability_score else some (some 0.7),
    feedback_count :=
      if e.feedback_count.isSome then e.feedback_count else some (some 0) }

/-- The whole migration pass of `_load_memory` over a loaded snapshot. -/
def migrateEntries (l : List RawEntry) : List RawEntry := l.map migrateEntry

/-- An element of the `entries` argument of `MemoryManager.save_memory`
(only the keys the method reads). -/
structure InputEntry where
  case_number : String
  text : String
  embedding : List ℚ
  root_cause : Option (Option String)
  resolution : Option (Option String)
deriving DecidableEq, Repr

/-- The Phase-5-schema record built by `save_memory` for a fresh entry
(lines 52–63). -/
def normalizeEntry (inp : InputEntry) : CaseRecord :=
  { case_number := inp.case_number
    text := inp.text
    embedding := inp.embedding
    ai_root_cause := inp.root_cause.getD (some "N/A")
    ai_resolution := inp.resolution.getD (some "N/A")
    analyst_root_cause := none
    analyst_resolution := none
    verified := false
    reliability_score := 0.7
    feedback_count := 0
    last_feedback_at := none }

/-- The `for entry in entries` loop of `save_memory`, carrying the
`existing_numbers` set as a list of keys. -/
def saveGo : List CaseRecord → List String → List InputEntry → List CaseRecord
  | mem, _, [] => mem
  | mem, keys, e :: rest =>
    if e.case_number ∈ keys then saveGo mem keys rest
    else saveGo (mem ++ [normalizeEntry e]) (keys ++ [e.case_number]) rest

/-- `MemoryManager.save_memory`: appends only entries whose
`case_number` is not already present (first-write-wins upsert).  The
trailing JSON dump does not change the in-memory state and is omitted. -/
def save_memory (mem : List CaseRecord) (entries : List InputEntry) : List CaseRecord :=
  saveGo mem (mem.map (·.case_number)) entries

/-- The `ai_output` dict as read by `submit_feedback`
(`.get("probableRootCause")`, `.get("recommendedSteps")`, with a `"N/A"`
default only in the fresh-entry branch).  Outer `Option` = key present,
inner = value non-null. -/
structure AIOutput where
  probableRootCause : Option (Option String)
  recommendedSteps : Option (Option String)
deriving DecidableEq, Repr

/-- The `analyst_correction` dict (read only via `.get`, which collapses
an absent key and a null value to `None`). -/
structure Correction where
  root_cause : Option String
  resolution : Option String
deriving DecidableEq, Repr

/-- One record of the append-only audit log `feedback_memory.json`. -/
structure FeedbackRecord where
  case_number : String
  timestamp : String
  feedback_type : String
  ai_root_cause : Option String
  ai_resolution : Option String
  analyst_root_cause : Option String
  analyst_resolution : Option String
  confidence_score_at_time : Option ℚ
deriving DecidableEq, Repr

/-- The `feedback_entry` dict built at the top of `submit_feedback`
(lines 79–88); `ts` stands for `datetime.now().isoformat()`. -/
def mkFeedbackEntry (cn ftype : String) (ai : AIOutput) (corr : Option Correction)
    (conf : Option ℚ) (ts : String) : FeedbackRecord :=
  { case_number := cn
    timestamp := ts
    feedback_type := ftype
    ai_root_cause := ai.probableRootCause.join
    ai_resolution := ai.recommendedSteps.join
    analyst_root_cause := corr.bind (·.root_cause)
    analyst_resolution := corr.bind (·.resolution)
    confidence_score_at_time := conf }

/-- Python truthiness of an optional string (`None` and `""` are falsy). -/
def truthyStr : Option String → Bool
  | none => false
  | some s => !(s == "")

/-- Python truthiness of an optional list (`None` and `[]` are falsy). -/
def truthyList : Option (List ℚ) → Bool
  | none => false
  | some l => !l.isEmpty

/-- The body of the `for entry in self.memory` loop of `submit_feedback`
applied to the matching entry (lines 104–122): bump the feedback count,
stamp the date, apply the per-kind state machine, then one-time-fill
placeholder AI fields from the snapshot.  `dt` stands for
`datetime.now().date().isoformat()`. -/
def applyFeedbackToEntry (ftype : String) (ai : AIOutput) (corr : Option Correction)
    (dt : String) (e : CaseRecord) : CaseRecord :=
  let e1 := { e with feedback_count := e.feedback_count + 1, last_feedback_at := some dt }
  let e2 :=
    if ftype = "correct" then
      { e1 with verified := true, reliability_score := min 1.0 (e1.reliability_score + 0.05) }
    else if ftype = "incorrect" then
      { e1 with verified := false, reliability_score := max 0.3 (e1.reliability_score - 0.20) }
    else if ftype = "edited" ∧ corr.isSome = true then
      { e1 with verified := true, reliability_score := 1.0,
                analyst_root_cause := corr.bind (·.root_cause),
                analyst_resolution := corr.bind (·.resolution) }
    else e1
  if e2.ai_root_cause = some "N/A" then
    { e2 with ai_root_cause := ai.probableRootCause.join,
              ai_resolution := ai.recommendedSteps.join }
  else e2

/-- Apply `f` to the first entry whose `case_number` matches `cn`
(the loop `break`s after the first hit); also reports the `found` flag. -/
def updateFirst (cn : String) (f : CaseRecord → CaseRecord) :
    List CaseRecord → Bool × List CaseRecord
  | [] => (false, [])
  | e :: rest =>
    if e.case_number = cn then (true, f e :: rest)
    else ((updateFirst cn f rest).1, e :: (updateFirst cn f rest).2)

/-- The fresh record created when feedback targets an unknown
`case_number` and a truthy `text` and `embedding` were supplied
(lines 128–140). -/
def freshEntry (cn ftype : String) (ai : AIOutput) (corr : Option Correction)
    (t : String) (v : List ℚ) (dt : String) : CaseRecord :=
  { case_number := cn
    text := t
    embedding := v
    ai_root_cause := ai.probableRootCause.getD (some "N/A")
    ai_resolution := ai.recommendedSteps.getD (some "N/A")
    analyst_root_cause := corr.bind (·.root_cause)
    analyst_resolution := corr.bind (·.resolution)
    verified := ftype == "correct" || ftype == "edited"
    reliability_score := if ftype = "edited" then 1.0 else if ftype = "correct" then 0.75 else 0.5
    feedback_count := 1
    last_feedback_at := some dt }

/-- `MemoryManager.submit_feedback` on the in-memory state
`(memory, feedback log)`: append one audit record, mutate the first
matching case record, and create a fresh record when none matched and a
truthy text+embedding pair was supplied.  File dumps are state-preserving
and omitted. -/
def submit_feedback (cn ftype : String) (ai : AIOutput) (corr : Option Correction)
    (conf : Option ℚ) (text : Option String) (emb : Option (List ℚ)) (ts dt : String)
    (mem : List CaseRecord) (flog : List FeedbackRecord) :
    List CaseRecord × List FeedbackRecord :=
  let flog1 := flog ++ [mkFeedbackEntry cn ftype ai corr conf ts]
  let r := updateFirst cn (applyFeedbackToEntry ftype ai corr dt) mem
  let mem1 :=
    if r.1 = false ∧ truthyStr text = true ∧ truthyList emb = true then
      r.2 ++ [freshEntry cn ftype ai corr (text.getD "") (emb.getD []) dt]
    else r.2
  (mem1, flog1)

/-- One abstract call to `submit_feedback` (everything an invocation
supplies, timestamps included). -/
structure FeedbackCall where
  case_number : String
  feedback_type : String
  ai_output : AIOutput
  analyst_correction : Option Correction
  confidence_score : Option ℚ
  text : Option String
  embedding : Option (List ℚ)
  ts : String
  dt : String

/-- A finite sequence of `submit_feedback` calls folded over the store. -/
def applyCalls : List FeedbackCall → List CaseRecord × List FeedbackRecord →
    List CaseRecord × List FeedbackRecord
  | [], st => st
  | c :: rest, st =>
    applyCalls rest (submit_feedback c.case_number c.feedback_type c.ai_output
      c.analyst_correction c.confidence_score c.text c.embedding c.ts c.dt st.1 st.2)

/-! ## Response validator (`src/src/agents/ai_analyzer.py`, `_validate_and_parse`) -/

/-- A parsed JSON value (the shapes `_validate_and_parse` inspects). -/
inductive JVal where
  | null : JVal
  | bool : Bool → JVal
  | num : ℚ → JVal
  | str : String → JVal
deriving DecidableEq, Repr

/-- A parsed JSON object, as an association list preserving key order. -/
abbrev JObj := List (String × JVal)

/-- The two calling modes of `_validate_and_parse`. -/
inductive VMode where
  | initial : VMode
  | enhanced : VMode
deriving DecidableEq, Repr

/-- The `required_keys` list chosen by mode (lines 214–226). -/
def requiredKeys : VMode → List String
  | .initial =>
    ["impactedService", "probableRootCause", "splunkQuerySuggestion",
     "recommendedSteps", "confidence", "confidence_score", "confidence_reasoning",
     "isRepeatedIssue", "similarTicketReference", "similarityScore", "visualEvidenceUsed"]
  | .enhanced =>
    ["enhanced_root_cause", "enhanced_resolution", "log_correlation_summary",
     "enhanced_confidence_score", "confidence_change_reason", "dominant_exception",
     "impactedService"]

/-- Whether `n` occurs as a contiguous sublist of `h`. -/
def charsInfix (n : List Char) : List Char → Bool
  | [] => n.isEmpty
  | c :: rest => n.isPrefixOf (c :: rest) || charsInfix n rest

/-- Python's case-sensitive substring test `needle in hay`. -/
def strContainsSub (needle hay : String) : Bool :=
  charsInfix needle.toList hay.toList

/-- The default written for a missing (or null) required key
(lines 228–236): `isRepeatedIssue → False`, keys containing `"score"`
→ `50.0`, keys containing `"similarity"` → `0.0`, otherwise `"N/A"`.
Note the substring tests are case-sensitive, so `similarityScore` falls
into the `"similarity"` branch, not the `"score"` branch. -/
def defaultFor (k : String) : JVal :=
  if k = "isRepeatedIssue" then .bool false
  else if strContainsSub "score" k then .num 50.0
  else if strContainsSub "similarity" k then .num 0.0
  else .str "N/A"

/-- Python dict assignment `data[key] = v` on an association list. -/
def setKey (k : String) (v : JVal) : JObj → JObj
  | [] => [(k, v)]
  | (k', v') :: rest => if k' = k then (k, v) :: rest else (k', v') :: setKey k v rest

/-- One iteration of the repair loop:
`if key not in data or data[key] is None: data[key] = default`. -/
def repairKey (d : JObj) (k : String) : JObj :=
  match d.lookup k with
  | none => setKey k (defaultFor k) d
  | some .null => setKey k (defaultFor k) d
  | some _ => d

/-- `AIAnalyzer._validate_and_parse`.  The argument is the outcome of
`json.loads`: `none` models a `JSONDecodeError` (the method re-raises
`Exception("AI output was not valid JSON.")`), `some data` a successfully
parsed object, which is repaired in place over the mode's required keys. -/
def validate_and_parse (parsed : Option JObj) (mode : VMode) : Except String JObj :=
  match parsed with
  | none => .error "AI output was not valid JSON."
  | some data => .ok ((requiredKeys mode).foldl repairKey data)

/-- The value `_validate_and_parse` leaves under a required key `k`:
the original non-null value if one was present, else `defaultFor k`. -/
def expectedVal (d : JObj) (k : String) : JVal :=
  match d.lookup k with
  | none => defaultFor k
  | some .null => defaultFor k
  | some v => v

/-! ## Investigation orchestrator (`src/src/agents/investigation_graph.py`)

The graph's collaborators are injected through the constructor
(`sf_client`, `ai_analyzer`, `log_parser`); they are modelled as an
abstract record of functions.  The similarity engine and memory manager
are instantiated with the concrete embeddings above.  Each node returns
its partial state update; a trace of collaborator calls is threaded
through so that "never calls X" claims are directly expressible. -/

/-- The `case_obj` as used by the graph (`case_obj["Id"]`). -/
structure CaseObj where
  Id : String
deriving DecidableEq, Repr

/-- An attachment descriptor: `attach["Id"]`,
`attach.get("Source", "Attachment")`, `attach.get("ContentType", "image/jpeg")`. -/
structure Attachment where
  Id : String
  Source : Option String
  ContentType : Option String
deriving DecidableEq, Repr

/-- The initial RCA dict, reduced to the keys the graph itself reads
(`probableRootCause`, `recommendedSteps`, `confidence_score`); outer
`Option` = key present, inner = value non-null. -/
structure RCAResult where
  probableRootCause : Option (Option String)
  recommendedSteps : Option (Option String)
  confidence_score : Option (Option ℚ)
deriving DecidableEq, Repr

/-- The enhanced RCA dict, reduced to the key the graph reads. -/
structure EnhancedRCA where
  enhanced_confidence_score : Option (Option ℚ)
deriving DecidableEq, Repr

/-- The `similarity_context` dict built by `node_query_memory`. -/
structure SimCtx where
  ticket_number : String
  score : ℚ
  content : String
  full_entry : CaseRecord
deriving DecidableEq, Repr

/-- Tags for collaborator calls, used for the call trace. -/
inductive CallTag where
  | fetchTicket | fetchAttachments | getAttachmentContent | visionExtract
  | embed | findSimilar | analyze | logParse | formatForAI | reanalyze
deriving DecidableEq, Repr

/-- The injected collaborators (ticket source, AI services, log parser).
Vision payloads and log summaries are kept opaque as strings. -/
structure Collab where
  get_full_ticket_data : String → Option (String × CaseObj)
  fetch_case_attachments : String → List Attachment
  get_attachment_content : String → String → String
  vision_extract : String → String → Option String
  get_ticket_text_for_comparison : CaseObj → String
  get_embedding : String → Option (List ℚ)
  find_most_similar : Option (List ℚ) → List CaseRecord → Option CaseRecord × ℚ
  analyze_ticket : String → Option SimCtx → Option String → RCAResult
  log_parser_parse : String → String
  format_for_ai : String → String
  reanalyze_with_logs : String → RCAResult → String → Option String → Option SimCtx → EnhancedRCA

/-- The shared `InvestigationState` `TypedDict`; fields the initial state
does not set are `none`. -/
structure InvState where
  ticket_id : String
  ticket_data : Option String
  case_obj : Option CaseObj
  vision_data : Option String
  similarity_context : Option SimCtx
  text_for_embedding : Option String
  current_embedding : Option (List ℚ)
  initial_rca : Option RCAResult
  log_data : Option String
  log_summary : Option String
  enhanced_rca : Option EnhancedRCA
  confidence_score : ℚ
  status_updates : List String
deriving DecidableEq, Repr

/-- `round(float(score), 2)` modelled as exact rational rounding to two
decimal places. -/
def round2 (q : ℚ) : ℚ := (round (q * 100) : ℤ) / 100

/-- `node_ingest_ticket`: fetch ticket data, abort the run when the
ticket does not exist. -/
def node_ingest_ticket (c : Collab) (st : InvState) :
    Except String (InvState × List CallTag) :=
  let updates := st.status_updates ++ ["🔍 Fetching Ticket Data..."]
  match c.get_full_ticket_data st.ticket_id with
  | none => .error ("Ticket #" ++ st.ticket_id ++ " not found.")
  | some (td, co) =>
    .ok ({ st with ticket_data := some td, case_obj := some co,
                   status_updates := updates }, [.fetchTicket])

/-- `node_extract_visuals`: inspect at most the first attachment. -/
def node_extract_visuals (c : Collab) (st : InvState) : InvState × List CallTag :=
  let updates := st.status_updates ++ ["📸 Inspecting Attachments & Screenshots..."]
  let caseId := (st.case_obj.map (·.Id)).getD ""
  match c.fetch_case_attachments caseId with
  | [] => ({ st with vision_data := none, status_updates := updates }, [.fetchAttachments])
  | attach :: _ =>
    let img := c.get_attachment_content attach.Id (attach.Source.getD "Attachment")
    let vd := c.vision_extract img (attach.ContentType.getD "image/jpeg")
    ({ st with vision_data := vd, status_updates := updates },
     [.fetchAttachments, .getAttachmentContent, .visionExtract])

/-- `node_query_memory`: build the comparison text, embed it, and query
the similarity engine against the store. -/
def node_query_memory (c : Collab) (store : List CaseRecord) (st : InvState) :
    InvState × List CallTag :=
  let updates := st.status_updates ++ ["🧠 Querying Semantic Memory..."]
  let baseText := (st.case_obj.map c.get_ticket_text_for_comparison).getD ""
  let text :=
    match st.vision_data with
    | none => baseText
    | some v => baseText ++ "\nVisual Markers: " ++ v
  let emb := c.get_embedding text
  let m := c.find_most_similar emb store
  let ctx : Option SimCtx :=
    match m.1 with
    | none => none
    | some entry =>
      some { ticket_number := entry.case_number, score := round2 m.2,
             content := entry.text, full_entry := entry }
  ({ st with text_for_embedding := some text, current_embedding := emb,
             similarity_context := ctx, status_updates := updates },
   [.embed, .findSimilar])

/-- `node_generate_rca`: call the analysis service and self-register the
result into the store via `save_memory`. -/
def node_generate_rca (c : Collab) (store : List CaseRecord) (st : InvState) :
    InvState × List CaseRecord × List CallTag :=
  let updates := st.status_updates ++ ["🤖 Generating Autonomous RCA..."]
  let rca := c.analyze_ticket (st.ticket_data.getD "") st.similarity_context st.vision_data
  let store1 := save_memory store
    [{ case_number := st.ticket_id, text := st.text_for_embedding.getD "",
       embedding := (st.current_embedding).getD [],
       root_cause := rca.probableRootCause, resolution := rca.recommendedSteps }]
  ({ st with initial_rca := some rca,
             confidence_score := (rca.confidence_score.getD (some 0)).getD 0,
             status_updates := updates },
   store1, [.analyze])

/-- `node_analyze_logs`: parse the raw log text and re-analyze. -/
def node_analyze_logs (c : Collab) (st : InvState) : InvState × List CallTag :=
  let updates := st.status_updates ++ ["🔍 Correlating Log Evidence..."]
  let summary := c.log_parser_parse (st.log_data.getD "")
  let erca := c.reanalyze_with_logs (st.ticket_data.getD "")
    (st.initial_rca.getD ⟨none, none, none⟩) (c.format_for_ai summary)
    st.vision_data st.similarity_context
  ({ st with log_summary := some summary, enhanced_rca := some erca,
             confidence_score := (erca.enhanced_confidence_score.getD
               (some st.confidence_score)).getD st.confidence_score,
             status_updates := updates },
   [.logParse, .formatForAI, .reanalyze])

/-- `node_synthesize_findings`: finalize, no external calls. -/
def node_synthesize_findings (st : InvState) : InvState :=
  { st with status_updates := st.status_updates ++ ["💾 Finalizing Deep Investigation..."] }

/-- `InvestigationGraph.route_after_rca`: route to the log deep dive
exactly when `state.get("log_data")` is truthy (Python: non-`None`,
non-empty). -/
def route_after_rca (st : InvState) : String :=
  if truthyStr st.log_data = true then "log_deep_dive" else "finalize"

/-- The post-ingest tail of the compiled graph:
`extract_visuals → query_memory → generate_rca → (analyze_logs | ∅) →
synthesize`, threading the knowledge store and the call trace. -/
def pipeline_after_ingest (c : Collab) (store : List CaseRecord) (st1 : InvState) :
    InvState × List CaseRecord × List CallTag :=
  let r2 := node_extract_visuals c st1
  let r3 := node_query_memory c store r2.1
  let r4 := node_generate_rca c store r3.1
  let st4 := r4.1
  let store4 := r4.2.1
  let tr4 := r2.2 ++ r3.2 ++ r4.2.2
  if route_after_rca st4 = "log_deep_dive" then
    let r5 := node_analyze_logs c st4
    (node_synthesize_findings r5.1, store4, tr4 ++ r5.2)
  else
    (node_synthesize_findings st4, store4, tr4)

/-- The initial state built by `InvestigationGraph.run`. -/
def initState (ticket_id : String) (log_data : Option String) : InvState :=
  { ticket_id := ticket_id, ticket_data := none, case_obj := none,
    vision_data := none, similarity_context := none, text_for_embedding := none,
    current_embedding := none, initial_rca := none, log_data := log_data,
    log_summary := none, enhanced_rca := none, confidence_score := 0,
    status_updates := [] }

/-- `InvestigationGraph.run`: the compiled graph
`ingest → extract_visuals → query_memory → generate_rca →
(analyze_logs | ∅) → synthesize`. -/
def InvestigationGraph.run (c : Collab) (store : List CaseRecord)
    (ticket_id : String) (log_data : Option String) :
    Except String (InvState × List CaseRecord × List CallTag) :=
  match node_ingest_ticket c (initState ticket_id log_data) with
  | .error msg => .error msg
  | .ok (st1, t1) =>
    let r := pipeline_after_ingest c store st1
    .ok (r.1, r.2.1, t1 ++ r.2.2)

/-! ## Helper lemmas -/

theorem updateFirst_found (cn : String) (f : CaseRecord → CaseRecord)
    (l₁ l₂ : List CaseRecord) (e : CaseRecord) (hcn : e.case_number = cn)
    (hl : ∀ x ∈ l₁, x.case_number ≠ cn) :
    updateFirst cn f (l₁ ++ e :: l₂) = (true, l₁ ++ f e :: l₂) := by
  induction l₁ with
  | nil => simp [updateFirst, hcn]
  | cons x xs ih =>
    have hx : x.case_number ≠ cn := hl x (by simp)
    have ih' := ih (fun y hy => hl y (by simp [hy]))
    simp [updateFirst, hx, ih']

theorem updateFirst_not_found (cn : String) (f : CaseRecord → CaseRecord)
    (mem : List CaseRecord) (h : ∀ x ∈ mem, x.case_number ≠ cn) :
    updateFirst cn f mem = (false, mem) := by
  induction mem with
  | nil => rfl
  | cons x xs ih =>
    have hx : x.case_number ≠ cn := h x (by simp)
    have ih' := ih (fun y hy => h y (by simp [hy]))
    simp [updateFirst, hx, ih']

theorem updateFirst_mem (cn : String) (f : CaseRecord → CaseRecord)
    (mem : List CaseRecord) (x : CaseRecord) (hx : x ∈ (updateFirst cn f mem).2) :
    x ∈ mem ∨ ∃ y ∈ mem, x = f y := by
  induction mem with
  | nil => simp [updateFirst] at hx
  | cons e rest ih =>
    by_cases he : e.case_number = cn
    · rw [updateFirst, if_pos he] at hx
      rcases List.mem_cons.1 hx with hx | hx
      · exact Or.inr ⟨e, List.mem_cons_self e rest, hx⟩
      · exact Or.inl (List.mem_cons_of_mem _ hx)
    · rw [updateFirst, if_neg he] at hx
      rcases List.mem_cons.1 hx with hx | hx
      · exact Or.inl (hx ▸ List.mem_cons_self e rest)
      · rcases ih hx with h | ⟨y, hy, hxy⟩
        · exact Or.inl (List.mem_cons_of_mem _ h)
        · exact Or.inr ⟨y, List.mem_cons_of_mem _ hy, hxy⟩

theorem applyFeedback_reliability_eq (ftype : String) (ai : AIOutput)
    (corr : Option Correction) (dt : String) (e : CaseRecord) :
    (applyFeedbackToEntry ftype ai corr dt e).reliability_score =
      if ftype = "correct" then min 1.0 (e.reliability_score + 0.05)
      else if ftype = "incorrect" then max 0.3 (e.reliability_score - 0.20)
      else if ftype = "edited" ∧ corr.isSome = true then 1.0
      else e.reliability_score := by
  simp only [applyFeedbackToEntry]
  split_ifs <;> rfl

theorem applyFeedback_reliability_bounds (ftype : String) (ai : AIOutput)
    (corr : Option Correction) (dt : String) (e : CaseRecord)
    (h : 0.3 ≤ e.reliability_score ∧ e.reliability_score ≤ 1.0) :
    0.3 ≤ (applyFeedbackToEntry ftype ai corr dt e).reliability_score ∧
      (applyFeedbackToEntry ftype ai corr dt e).reliability_score ≤ 1.0 := by
  obtain ⟨h1, h2⟩ := h
  rw [applyFeedback_reliability_eq]
  split_ifs
  · exact ⟨le_min (by norm_num) (by linarith), min_le_left _ _⟩
  · exact ⟨le_max_left _ _, max_le (by norm_num) (by linarith)⟩
  · norm_num
  · exact ⟨h1, h2⟩

theorem freshEntry_reliability_bounds (cn ftype : String) (ai : AIOutput)
    (corr : Option Correction) (t : String) (v : List ℚ) (dt : String) :
    0.3 ≤ (freshEntry cn ftype ai corr t v dt).reliability_score ∧
      (freshEntry cn ftype ai corr t v dt).reliability_score ≤ 1.0 := by
  show 0.3 ≤ (if ftype = "edited" then (1.0 : ℚ) else if ftype = "correct" then 0.75 else 0.5) ∧
    (if ftype = "edited" then (1.0 : ℚ) else if ftype = "correct" then 0.75 else 0.5) ≤ 1.0
  split_ifs <;> norm_num

theorem submit_feedback_reliability_inv (cn ftype : String) (ai : AIOutput)
    (corr : Option Correction) (conf : Option ℚ) (text : Option String)
    (emb : Option (List ℚ)) (ts dt : String) (mem : List CaseRecord)
    (flog : List FeedbackRecord)
    (h : ∀ e ∈ mem, 0.3 ≤ e.reliability_score ∧ e.reliability_score ≤ 1.0) :
    ∀ e ∈ (submit_feedback cn ftype ai corr conf text emb ts dt mem flog).1,
      0.3 ≤ e.reliability_score ∧ e.reliability_score ≤ 1.0 := by
  intro e he
  have hup : ∀ x ∈ (updateFirst cn (applyFeedbackToEntry ftype ai corr dt) mem).2,
      0.3 ≤ x.reliability_score ∧ x.reliability_score ≤ 1.0 := by
    intro x hx
    rcases updateFirst_mem cn _ mem x hx with hm | ⟨y, hy, hxy⟩
    · exact h x hm
    · exact hxy ▸ applyFeedback_reliability_bounds ftype ai corr dt y (h y hy)
  unfold submit_feedback at he
  simp only at he
  split at he
  · rcases List.mem_append.1 he with he | he
    · exact hup e he
    · have := List.mem_singleton.1 he
      exact this ▸ freshEntry_reliability_bounds cn ftype ai corr _ _ dt
  · exact hup e he

/-! ## Claim theorems: knowledge store -/

/-- C1: starting from a store whose records all carry a reliability score
in `[0.3, 1.0]`, any finite sequence of `submit_feedback` calls of kinds
`correct`, `incorrect`, `edited` leaves every record of the store —
mutated or freshly created by a feedback call — with a reliability score
in `[0.3, 1.0]`. -/
theorem reliability_clamped_after_feedback_sequences
    (calls : List FeedbackCall) (mem : List CaseRecord) (flog : List FeedbackRecord)
    (h0 : ∀ e ∈ mem, 0.3 ≤ e.reliability_score ∧ e.reliability_score ≤ 1.0)
    (hk : ∀ c ∈ calls, c.feedback_type = "correct" ∨ c.feedback_type = "incorrect" ∨
      c.feedback_type = "edited") :
    ∀ e ∈ (applyCalls calls (mem, flog)).1,
      0.3 ≤ e.reliability_score ∧ e.reliability_score ≤ 1.0 := by
  induction calls generalizing mem flog with
  | nil => exact h0
  | cons c rest ih =>
    simp only [applyCalls]
    exact ih _ _
      (submit_feedback_reliability_inv c.case_number c.feedback_type c.ai_output
        c.analyst_correction c.confidence_score c.text c.embedding c.ts c.dt mem flog h0)
      (fun c' hc' => hk c' (by simp [hc']))

/-- Witness for C1 at a concrete store and call sequence (three
`incorrect` submissions against a record starting at 0.7). -/
theorem reliability_clamped_after_feedback_sequences_witness :
    ((applyCalls
      [⟨"C-1", "incorrect", ⟨none, none⟩, none, none, none, none, "t1", "d1"⟩,
       ⟨"C-1", "incorrect", ⟨none, none⟩, none, none, none, none, "t2", "d2"⟩,
       ⟨"C-1", "incorrect", ⟨none, none⟩, none, none, none, none, "t3", "d3"⟩]
      ([{ case_number := "C-1", text := "", embedding := [1], ai_root_cause := some "x",
          ai_resolution := some "y", analyst_root_cause := none, analyst_resolution := none,
          verified := false, reliability_score := 0.7, feedback_count := 0,
          last_feedback_at := none }], [])).1.all
      (fun e => decide (0.3 ≤ e.reliability_score ∧ e.reliability_score ≤ 1.0))) = true :=
  List.all_eq_true.mpr (fun e he =>
    decide_eq_true (reliability_clamped_after_feedback_sequences _ _ _
      (by intro e' he'; simp at he'; subst he'; norm_num)
      (by intro c hc; simp at hc; rcases hc with h | h | h <;> simp [h]) e he))
theorem applyFeedback_edited_some_fields (ai : AIOutput) (c : Correction)
    (dt : String) (e : CaseRecord) :
    (applyFeedbackToEntry "edited" ai (some c) dt e).reliability_score = 1.0 ∧
      (applyFeedbackToEntry "edited" ai (some c) dt e).verified = true ∧
      (applyFeedbackToEntry "edited" ai (some c) dt e).analyst_root_cause = c.root_cause ∧
      (applyFeedbackToEntry "edited" ai (some c) dt e).analyst_resolution = c.resolution := by
  have h1 : ¬ ("edited" : String) = "correct" := by decide
  have h2 : ¬ ("edited" : String) = "incorrect" := by decide
  simp only [applyFeedbackToEntry, if_neg h1, if_neg h2]
  split_ifs <;> simp_all

theorem applyFeedback_edited_none_fields (ai : AIOutput) (dt : String) (e : CaseRecord) :
    (applyFeedbackToEntry "edited" ai none dt e).reliability_score = e.reliability_score ∧
      (applyFeedbackToEntry "edited" ai none dt e).verified = e.verified ∧
      (applyFeedbackToEntry "edited" ai none dt e).analyst_root_cause = e.analyst_root_cause ∧
      (applyFeedbackToEntry "edited" ai none dt e).analyst_resolution = e.analyst_resolution ∧
      (applyFeedbackToEntry "edited" ai none dt e).feedback_count = e.feedback_count + 1 ∧
      (applyFeedbackToEntry "edited" ai none dt e).last_feedback_at = some dt := by
  have h1 : ¬ ("edited" : String) = "correct" := by decide
  have h2 : ¬ ("edited" : String) = "incorrect" := by decide
  simp only [applyFeedbackToEntry, if_neg h1, if_neg h2]
  split_ifs <;> simp_all

/-- C3: on an existing record (the first one matching the identifier), an
`edited` feedback submission carrying a correction payload sets
reliability to exactly `1.0` and `verified` to `true` regardless of the
record's prior values, and installs the correction's root cause and
resolution as the analyst fields. -/
theorem edited_feedback_sets_gold_standard (l₁ l₂ : List CaseRecord) (e : CaseRecord)
    (cn : String) (ai : AIOutput) (c : Correction) (conf : Option ℚ)
    (text : Option String) (emb : Option (List ℚ)) (ts dt : String)
    (flog : List FeedbackRecord)
    (hcn : e.case_number = cn) (hl : ∀ x ∈ l₁, x.case_number ≠ cn) :
    ∃ e', (submit_feedback cn "edited" ai (some c) conf text emb ts dt
        (l₁ ++ e :: l₂) flog).1 = l₁ ++ e' :: l₂ ∧
      e'.reliability_score = 1.0 ∧ e'.verified = true ∧
      e'.analyst_root_cause = c.root_cause ∧ e'.analyst_resolution = c.resolution := by
  refine ⟨applyFeedbackToEntry "edited" ai (some c) dt e, ?_,
    applyFeedback_edited_some_fields ai c dt e⟩
  unfold submit_feedback
  simp only [updateFirst_found cn _ l₁ l₂ e hcn hl]
  simp

/-- A concrete unverified record with reliability 0.4 and null analyst
fields, used by witnesses. -/
def sampleRecordA : CaseRecord :=
  { case_number := "C-9", text := "txt", embedding := [1]
    ai_root_cause := some "old", ai_resolution := some "old"
    analyst_root_cause := none, analyst_resolution := none
    verified := false, reliability_score := 0.4, feedback_count := 2
    last_feedback_at := none }

/-- A concrete verified record with non-null analyst fields, used by
witnesses. -/
def sampleRecordB : CaseRecord :=
  { case_number := "C-2", text := "txt", embedding := [1]
    ai_root_cause := some "r", ai_resolution := some "s"
    analyst_root_cause := some "a", analyst_resolution := some "b"
    verified := true, reliability_score := 0.65, feedback_count := 4
    last_feedback_at := some "old" }

/-- Witness for C3 at a concrete store (prior reliability 0.4, prior
verified false, prior analyst fields null). -/
theorem edited_feedback_sets_gold_standard_witness :
    ∃ e', (submit_feedback "C-9" "edited" ⟨some (some "rc"), some (some "rs")⟩
        (some ⟨some "fixed root", some "fixed steps"⟩) (some 80) none none "t" "d"
        ([] ++ sampleRecordA :: []) []).1 = [] ++ e' :: [] ∧
      e'.reliability_score = 1.0 ∧ e'.verified = true ∧
      e'.analyst_root_cause = some "fixed root" ∧
      e'.analyst_resolution = some "fixed steps" :=
  edited_feedback_sets_gold_standard [] [] sampleRecordA "C-9" _ _ _ _ _ "t" "d" []
    rfl (by intro x hx; simp at hx)

/-- C9: an `edited` feedback submission with no correction payload leaves
the record's `verified`, reliability, and analyst fields unchanged while
still incrementing the feedback count, stamping the last-feedback date,
and appending exactly one `FeedbackRecord` to the audit log. -/
theorem edited_without_correction_frame (l₁ l₂ : List CaseRecord) (e : CaseRecord)
    (cn : String) (ai : AIOutput) (conf : Option ℚ) (text : Option String)
    (emb : Option (List ℚ)) (ts dt : String) (flog : List FeedbackRecord)
    (hcn : e.case_number = cn) (hl : ∀ x ∈ l₁, x.case_number ≠ cn) :
    ∃ e', (submit_feedback cn "edited" ai none conf text emb ts dt
        (l₁ ++ e :: l₂) flog).1 = l₁ ++ e' :: l₂ ∧
      e'.verified = e.verified ∧ e'.reliability_score = e.reliability_score ∧
      e'.analyst_root_cause = e.analyst_root_cause ∧
      e'.analyst_resolution = e.analyst_resolution ∧
      e'.feedback_count = e.feedback_count + 1 ∧
      e'.last_feedback_at = some dt ∧
      (submit_feedback cn "edited" ai none conf text emb ts dt
        (l₁ ++ e :: l₂) flog).2 = flog ++ [mkFeedbackEntry cn "edited" ai none conf ts] := by
  obtain ⟨hr, hv, harc, hars, hfc, hlf⟩ := applyFeedback_edited_none_fields ai dt e
  refine ⟨applyFeedbackToEntry "edited" ai none dt e, ?_, hv, hr, harc, hars, hfc, hlf, rfl⟩
  unfold submit_feedback
  simp only [updateFirst_found cn _ l₁ l₂ e hcn hl]
  simp

/-- Witness for C9 at a concrete store. -/
theorem edited_without_correction_frame_witness :
    ∃ e', (submit_feedback "C-2" "edited" ⟨none, none⟩ none none none none "t" "d"
        ([] ++ sampleRecordB :: []) []).1 = [] ++ e' :: [] ∧
      e'.verified = sampleRecordB.verified ∧
      e'.reliability_score = sampleRecordB.reliability_score ∧
      e'.analyst_root_cause = sampleRecordB.analyst_root_cause ∧
      e'.analyst_resolution = sampleRecordB.analyst_resolution ∧
      e'.feedback_count = sampleRecordB.feedback_count + 1 ∧
      e'.last_feedback_at = some "d" ∧
      (submit_feedback "C-2" "edited" ⟨none, none⟩ none none none none "t" "d"
        ([] ++ sampleRecordB :: []) []).2 =
        [] ++ [mkFeedbackEntry "C-2" "edited" ⟨none, none⟩ none none "t"] :=
  edited_without_correction_frame [] [] sampleRecordB "C-2" ⟨none, none⟩ none none none
    "t" "d" [] rfl (by intro x hx; simp at hx)

/-- C10: a `submit_feedback` call whose identifier matches no stored
record and that supplies no truthy text+embedding pair still appends
exactly one `FeedbackRecord` to the audit log and leaves the set of case
records entirely unchanged. -/
theorem feedback_unknown_id_keeps_store (mem : List CaseRecord)
    (flog : List FeedbackRecord) (cn ftype : String) (ai : AIOutput)
    (corr : Option Correction) (conf : Option ℚ) (text : Option String)
    (emb : Option (List ℚ)) (ts dt : String)
    (hno : ∀ x ∈ mem, x.case_number ≠ cn)
    (hte : ¬(truthyStr text = true ∧ truthyList emb = true)) :
    (submit_feedback cn ftype ai corr conf text emb ts dt mem flog).1 = mem ∧
      (submit_feedback cn ftype ai corr conf text emb ts dt mem flog).2 =
        flog ++ [mkFeedbackEntry cn ftype ai corr conf ts] := by
  have hu := updateFirst_not_found cn (applyFeedbackToEntry ftype ai corr dt) mem hno
  simp [submit_feedback, hu, hte]

/-- Witness for C10: feedback on an unknown ticket with text but no
embedding. -/
theorem feedback_unknown_id_keeps_store_witness :
    (submit_feedback "C-404" "incorrect" ⟨none, none⟩ none none (some "text") none
      "t" "d" [sampleRecordB] []).1 = [sampleRecordB] ∧
      (submit_feedback "C-404" "incorrect" ⟨none, none⟩ none none (some "text") none
        "t" "d" [sampleRecordB] []).2 =
        [] ++ [mkFeedbackEntry "C-404" "incorrect" ⟨none, none⟩ none none "t"] :=
  feedback_unknown_id_keeps_store [sampleRecordB] [] "C-404" "incorrect" ⟨none, none⟩
    none none (some "text") none "t" "d"
    (by intro x hx; simp at hx; subst hx; decide)
    (by decide)

/-! ## Claim theorems: schema migration (C5) -/

theorem migrateEntry_idem (e : RawEntry) : migrateEntry (migrateEntry e) = migrateEntry e := by
  rcases e with ⟨rc, rs, arc, ars, anc, ans, v, r, f⟩
  cases arc <;> cases ars <;> cases anc <;> cases ans <;> cases v <;> cases r <;> cases f <;>
    simp [migrateEntry]

/-- C5: the load-time schema migration of `_load_memory` is idempotent:
applying it twice to any list of (possibly legacy) records yields exactly
the records of applying it once. -/
theorem migration_idempotent (l : List RawEntry) :
    migrateEntries (migrateEntries l) = migrateEntries l := by
  induction l with
  | nil => rfl
  | cons e rest ih =>
    simp only [migrateEntries, List.map_cons] at ih ⊢
    rw [migrateEntry_idem, ih]

/-! ## Claim theorems: upsert (C6) -/

theorem save_memory_present_noop (mem : List CaseRecord) (inp : InputEntry)
    (h : inp.case_number ∈ mem.map (·.case_number)) :
    save_memory mem [inp] = mem := by
  simp [save_memory, saveGo, h]

/-- C6: upserting a record whose identifier is already present leaves the
store exactly unchanged (hence its size and the existing record's fields),
and upserting the same record twice equals upserting it once. -/
theorem upsert_existing_id_noop (mem : List CaseRecord) (inp : InputEntry) :
    (inp.case_number ∈ mem.map (·.case_number) → save_memory mem [inp] = mem) ∧
      save_memory (save_memory mem [inp]) [inp] = save_memory mem [inp] := by
  refine ⟨save_memory_present_noop mem inp, ?_⟩
  by_cases h : inp.case_number ∈ mem.map (·.case_number)
  · rw [save_memory_present_noop mem inp h, save_memory_present_noop mem inp h]
  · have h1 : save_memory mem [inp] = mem ++ [normalizeEntry inp] := by
      simp [save_memory, saveGo, h]
    rw [h1]
    apply save_memory_present_noop
    simp [normalizeEntry]

/-- Witness for C6: re-upserting an input whose case number is already
stored. -/
theorem upsert_existing_id_noop_witness :
    save_memory [sampleRecordB] [⟨"C-2", "other text", [2], none, none⟩] = [sampleRecordB] :=
  (upsert_existing_id_noop [sampleRecordB] ⟨"C-2", "other text", [2], none, none⟩).1
    (by decide)

/-! ## Claim theorems: response validation (C8) -/

theorem lookup_setKey_self (k : String) (v : JVal) (d : JObj) :
    (setKey k v d).lookup k = some v := by
  induction d with
  | nil => simp [setKey, List.lookup]
  | cons p rest ih =>
    rcases p with ⟨k', v'⟩
    by_cases h : k' = k
    · subst h
      simp [setKey, List.lookup]
    · have hb : (k == k') = false := beq_eq_false_iff_ne.mpr (Ne.symm h)
      simp [setKey, List.lookup, h, hb, ih]

theorem lookup_setKey_other (k' k : String) (v : JVal) (d : JObj) (hne : k' ≠ k) :
    (setKey k' v d).lookup k = d.lookup k := by
  have hb : (k == k') = false := beq_eq_false_iff_ne.mpr (Ne.symm hne)
  induction d with
  | nil => simp [setKey, List.lookup, hb]
  | cons p rest ih =>
    rcases p with ⟨k0, v0⟩
    by_cases h : k0 = k'
    · subst h
      simp [setKey, List.lookup, hb]
    · cases hk0 : (k == k0) <;> simp [setKey, List.lookup, h, hk0, ih]

theorem defaultFor_ne_null (k : String) : defaultFor k ≠ .null := by
  unfold defaultFor
  split_ifs <;> simp

theorem expectedVal_ne_null (d : JObj) (k : String) : expectedVal d k ≠ .null := by
  unfold expectedVal
  cases h : d.lookup k with
  | none => exact defaultFor_ne_null k
  | some v => cases v <;> simp [defaultFor_ne_null k]

theorem expectedVal_congr (d d' : JObj) (k : String) (h : d.lookup k = d'.lookup k) :
    expectedVal d k = expectedVal d' k := by
  unfold expectedVal
  rw [h]

theorem repairKey_lookup_self (d : JObj) (k : String) :
    (repairKey d k).lookup k = some (expectedVal d k) := by
  unfold repairKey expectedVal
  cases h : d.lookup k with
  | none => simp [lookup_setKey_self]
  | some v => cases v <;> simp [h, lookup_setKey_self]

theorem repairKey_lookup_other (d : JObj) (k' k : String) (hne : k' ≠ k) :
    (repairKey d k').lookup k = d.lookup k := by
  unfold repairKey
  cases h : d.lookup k' with
  | none => exact lookup_setKey_other k' k _ d hne
  | some v => cases v <;> simp [lookup_setKey_other k' k _ d hne]

theorem foldl_repair_preserve (l : List String) (d : JObj) (k : String) (v : JVal)
    (hv : d.lookup k = some v) (hnn : v ≠ .null) :
    (l.foldl repairKey d).lookup k = some v := by
  induction l generalizing d with
  | nil => simpa using hv
  | cons k0 rest ih =>
    simp only [List.foldl_cons]
    apply ih
    by_cases hek : k0 = k
    · subst hek
      unfold repairKey
      rw [hv]
      cases v with
      | null => exact absurd rfl hnn
      | bool b => exact hv
      | num q => exact hv
      | str s => exact hv
    · rw [repairKey_lookup_other d k0 k hek]
      exact hv

theorem foldl_repair_lookup (l : List String) (d : JObj) (k : String) (hk : k ∈ l) :
    (l.foldl repairKey d).lookup k = some (expectedVal d k) := by
  induction l generalizing d with
  | nil => simp at hk
  | cons k0 rest ih =>
    simp only [List.foldl_cons]
    by_cases hek : k0 = k
    · subst hek
      exact foldl_repair_preserve rest (repairKey d k0) k0 _
        (repairKey_lookup_self d k0) (expectedVal_ne_null d k0)
    · rcases List.mem_cons.1 hk with h | h
      · exact absurd h.symm hek
      · rw [ih (repairKey d k0) h,
          expectedVal_congr (repairKey d k0) d k (repairKey_lookup_other d k0 k hek)]

/-- C8 counterexample: in initial mode the required key
`visualEvidenceUsed` — documented as a boolean in the analyzer's own
prompt ("visualEvidenceUsed: boolean, ...") — is defaulted to the string
marker `"N/A"` when missing, not to the boolean `false` the claim
states (the fall-through `else` branch of the defaulting chain applies
because only `isRepeatedIssue` has a boolean default). -/
theorem validate_visual_flag_counterexample :
    (validate_and_parse (some []) VMode.initial).map (fun d => d.lookup "visualEvidenceUsed") =
      .ok (some (JVal.str "N/A")) ∧ JVal.str "N/A" ≠ JVal.bool false := by
  constructor
  · rfl
  · decide

/-- C8 amended: a response that fails to parse is surfaced as an error;
a parsed response is repaired so that every required key maps to a
non-null value — the original value when one was present and non-null,
otherwise the per-key default (`false` only for `isRepeatedIssue`, a
fixed neutral number for keys containing `"score"` or `"similarity"`,
and the `"N/A"` marker for every other key, the boolean
`visualEvidenceUsed` flag included); no required key is dropped. -/
theorem validate_and_parse_repairs :
    (∀ mode, validate_and_parse none mode = .error "AI output was not valid JSON.") ∧
    (∀ mode data k, k ∈ requiredKeys mode →
      (validate_and_parse (some data) mode).map (fun d => d.lookup k) =
        .ok (some (expectedVal data k)) ∧ expectedVal data k ≠ .null) := by
  refine ⟨fun mode => rfl, fun mode data k hk => ⟨?_, expectedVal_ne_null data k⟩⟩
  simp only [validate_and_parse, Except.map]
  rw [foldl_repair_lookup (requiredKeys mode) data k hk]

/-- Witness for C8 on an empty parsed object and the required key
`impactedService` of initial mode. -/
theorem validate_and_parse_repairs_witness :
    (validate_and_parse (some []) VMode.initial).map (fun d => d.lookup "impactedService") =
      .ok (some (expectedVal [] "impactedService")) ∧
      expectedVal [] "impactedService" ≠ .null :=
  validate_and_parse_repairs.2 VMode.initial [] "impactedService" (by decide)

/-! ## Claim theorems: pipeline log routing (C4) -/

theorem node_extract_visuals_frame (c : Collab) (st : InvState) :
    (node_extract_visuals c st).1.log_data = st.log_data ∧
      (node_extract_visuals c st).1.enhanced_rca = st.enhanced_rca := by
  simp only [node_extract_visuals]
  constructor <;> (split <;> rfl)

theorem node_extract_visuals_tags (c : Collab) (st : InvState) :
    CallTag.logParse ∉ (node_extract_visuals c st).2 ∧
      CallTag.reanalyze ∉ (node_extract_visuals c st).2 := by
  simp only [node_extract_visuals]
  constructor <;> (split <;> simp)

theorem node_query_memory_frame (c : Collab) (store : List CaseRecord) (st : InvState) :
    (node_query_memory c store st).1.log_data = st.log_data ∧
      (node_query_memory c store st).1.enhanced_rca = st.enhanced_rca :=
  ⟨rfl, rfl⟩

theorem node_query_memory_trace (c : Collab) (store : List CaseRecord) (st : InvState) :
    (node_query_memory c store st).2 = [CallTag.embed, CallTag.findSimilar] := rfl

theorem node_generate_rca_frame (c : Collab) (store : List CaseRecord) (st : InvState) :
    (node_generate_rca c store st).1.log_data = st.log_data ∧
      (node_generate_rca c store st).1.enhanced_rca = st.enhanced_rca :=
  ⟨rfl, rfl⟩

theorem node_generate_rca_trace (c : Collab) (store : List CaseRecord) (st : InvState) :
    (node_generate_rca c store st).2.2 = [CallTag.analyze] := rfl

theorem node_synthesize_frame (st : InvState) :
    (node_synthesize_findings st).enhanced_rca = st.enhanced_rca := rfl

theorem node_synthesize_status (st : InvState) :
    (node_synthesize_findings st).status_updates =
      st.status_updates ++ ["💾 Finalizing Deep Investigation..."] := rfl

theorem node_analyze_logs_erca (c : Collab) (st : InvState) :
    (node_analyze_logs c st).1.enhanced_rca.isSome = true := rfl

theorem node_analyze_logs_status (c : Collab) (st : InvState) :
    (node_analyze_logs c st).1.status_updates =
      st.status_updates ++ ["🔍 Correlating Log Evidence..."] := rfl

theorem gen_query_extract_frame (c : Collab) (store : List CaseRecord) (st1 : InvState) :
    (node_generate_rca c store
        (node_query_memory c store (node_extract_visuals c st1).1).1).1.log_data =
      st1.log_data ∧
    (node_generate_rca c store
        (node_query_memory c store (node_extract_visuals c st1).1).1).1.enhanced_rca =
      st1.enhanced_rca := by
  have h2 := node_extract_visuals_frame c st1
  have h3 := node_query_memory_frame c store (node_extract_visuals c st1).1
  have h4 := node_generate_rca_frame c store
    (node_query_memory c store (node_extract_visuals c st1).1).1
  exact ⟨by rw [h4.1, h3.1, h2.1], by rw [h4.2, h3.2, h2.2]⟩

theorem pipeline_after_ingest_no_log (c : Collab) (store : List CaseRecord) (st1 : InvState)
    (hl : truthyStr st1.log_data = false) (he : st1.enhanced_rca = none) :
    (pipeline_after_ingest c store st1).1.enhanced_rca = none ∧
      CallTag.logParse ∉ (pipeline_after_ingest c store st1).2.2 ∧
      CallTag.reanalyze ∉ (pipeline_after_ingest c store st1).2.2 := by
  have hf := gen_query_extract_frame c store st1
  have hroute : route_after_rca (node_generate_rca c store
      (node_query_memory c store (node_extract_visuals c st1).1).1).1 = "finalize" := by
    unfold route_after_rca
    rw [hf.1, hl]
    simp
  have htags := node_extract_visuals_tags c st1
  simp only [pipeline_after_ingest]
  rw [if_neg (by rw [hroute]; decide)]
  refine ⟨?_, ?_, ?_⟩
  · rw [node_synthesize_frame, hf.2, he]
  · rw [node_query_memory_trace, node_generate_rca_trace]
    intro hmem
    rcases List.mem_append.1 hmem with hmem | hmem
    · rcases List.mem_append.1 hmem with hmem | hmem
      · exact htags.1 hmem
      · simp at hmem
    · simp at hmem
  · rw [node_query_memory_trace, node_generate_rca_trace]
    intro hmem
    rcases List.mem_append.1 hmem with hmem | hmem
    · rcases List.mem_append.1 hmem with hmem | hmem
      · exact htags.2 hmem
      · simp at hmem
    · simp at hmem

theorem pipeline_after_ingest_log (c : Collab) (store : List CaseRecord) (st1 : InvState)
    (hl : truthyStr st1.log_data = true) :
    (pipeline_after_ingest c store st1).1.enhanced_rca.isSome = true ∧
      "🔍 Correlating Log Evidence..." ∈ (pipeline_after_ingest c store st1).1.status_updates := by
  have hf := gen_query_extract_frame c store st1
  have hroute : route_after_rca (node_generate_rca c store
      (node_query_memory c store (node_extract_visuals c st1).1).1).1 = "log_deep_dive" := by
    unfold route_after_rca
    rw [hf.1, hl]
    simp
  simp only [pipeline_after_ingest]
  rw [if_pos (by rw [hroute])]
  constructor
  · rw [show ∀ st : InvState, (node_synthesize_findings st).enhanced_rca.isSome =
        st.enhanced_rca.isSome from fun _ => rfl]
    exact node_analyze_logs_erca c _
  · rw [node_synthesize_status, node_analyze_logs_status]
    simp

/-- The state produced by a successful `node_ingest_ticket` on the
initial state. -/
def ingestedState (tid : String) (log : Option String) (td : String) (co : CaseObj) :
    InvState :=
  { initState tid log with
    ticket_id := tid
    ticket_data := some td
    case_obj := some co
    status_updates := (initState tid log).status_updates ++ ["🔍 Fetching Ticket Data..."] }

theorem node_ingest_ok (c : Collab) (tid : String) (log : Option String)
    (td : String) (co : CaseObj) (hg : c.get_full_ticket_data tid = some (td, co)) :
    node_ingest_ticket c (initState tid log) =
      .ok (ingestedState tid log td co, [CallTag.fetchTicket]) := by
  unfold node_ingest_ticket
  rw [show (initState tid log).ticket_id = tid from rfl, hg]
  rfl

/-- C4: for any collaborators and any existing ticket, a run invoked
without log text terminates with the enhanced-RCA field absent and with
no Log Parser or re-analysis call in the trace; a run invoked with
(non-empty) log text terminates with the enhanced-RCA field populated and
with the ordered status sequence containing the log-correlation message. -/
theorem pipeline_log_routing (c : Collab) (store : List CaseRecord) (tid : String)
    (h : (c.get_full_ticket_data tid).isSome = true) :
    (∃ r, InvestigationGraph.run c store tid none = .ok r ∧
      r.1.enhanced_rca = none ∧
      CallTag.logParse ∉ r.2.2 ∧ CallTag.reanalyze ∉ r.2.2) ∧
    (∀ s : String, s ≠ "" →
      ∃ r, InvestigationGraph.run c store tid (some s) = .ok r ∧
        r.1.enhanced_rca.isSome = true ∧
        "🔍 Correlating Log Evidence..." ∈ r.1.status_updates) := by
  rw [Option.isSome_iff_exists] at h
  obtain ⟨⟨td, co⟩, hg⟩ := h
  constructor
  · have hrest := pipeline_after_ingest_no_log c store (ingestedState tid none td co) rfl rfl
    refine ⟨((pipeline_after_ingest c store (ingestedState tid none td co)).1,
      (pipeline_after_ingest c store (ingestedState tid none td co)).2.1,
      [CallTag.fetchTicket] ++ (pipeline_after_ingest c store (ingestedState tid none td co)).2.2),
      ?_, hrest.1, ?_, ?_⟩
    · simp only [InvestigationGraph.run, node_ingest_ok c tid none td co hg]
    · intro hmem
      rw [List.singleton_append, List.mem_cons] at hmem
      rcases hmem with hmem | hmem
      · exact absurd hmem (by decide)
      · exact hrest.2.1 hmem
    · intro hmem
      rw [List.singleton_append, List.mem_cons] at hmem
      rcases hmem with hmem | hmem
      · exact absurd hmem (by decide)
      · exact hrest.2.2 hmem
  · intro s hs
    have hst : truthyStr (ingestedState tid (some s) td co).log_data = true := by
      show truthyStr (some s) = true
      simp [truthyStr, hs]
    have hrest := pipeline_after_ingest_log c store (ingestedState tid (some s) td co) hst
    refine ⟨((pipeline_after_ingest c store (ingestedState tid (some s) td co)).1,
      (pipeline_after_ingest c store (ingestedState tid (some s) td co)).2.1,
      [CallTag.fetchTicket] ++
        (pipeline_after_ingest c store (ingestedState tid (some s) td co)).2.2),
      ?_, hrest.1, hrest.2⟩
    simp only [InvestigationGraph.run, node_ingest_ok c tid (some s) td co hg]

/-- Trivial collaborators used by the C4 witness. -/
def cTest : Collab :=
  { get_full_ticket_data := fun _ => some ("td", ⟨"CASE"⟩)
    fetch_case_attachments := fun _ => []
    get_attachment_content := fun _ _ => ""
    vision_extract := fun _ _ => none
    get_ticket_text_for_comparison := fun _ => "text"
    get_embedding := fun _ => some [1]
    find_most_similar := fun _ _ => (none, 0)
    analyze_ticket := fun _ _ _ => ⟨some (some "rc"), some (some "rs"), some (some 90)⟩
    log_parser_parse := fun s => s
    format_for_ai := fun s => s
    reanalyze_with_logs := fun _ _ _ _ _ => ⟨some (some 95)⟩ }

/-- Witness for C4 at trivial collaborators, an empty store, and log
text "log". -/
theorem pipeline_log_routing_witness :
    (∃ r, InvestigationGraph.run cTest [] "T1" none = .ok r ∧
      r.1.enhanced_rca = none ∧
      CallTag.logParse ∉ r.2.2 ∧ CallTag.reanalyze ∉ r.2.2) ∧
    (∃ r, InvestigationGraph.run cTest [] "T1" (some "log") = .ok r ∧
      r.1.enhanced_rca.isSome = true ∧
      "🔍 Correlating Log Evidence..." ∈ r.1.status_updates) :=
  ⟨(pipeline_log_routing cTest [] "T1" rfl).1,
   (pipeline_log_routing cTest [] "T1" rfl).2 "log" (by decide)⟩

/-! ## Claim theorems: cosine similarity (C7) -/

theorem normSqQ_cons (x : ℚ) (l : List ℚ) : normSqQ (x :: l) = x * x + normSqQ l := by
  simp [normSqQ]

theorem normSqQ_nonneg (v : List ℚ) : 0 ≤ normSqQ v := by
  induction v with
  | nil => simp [normSqQ]
  | cons x l ih =>
    rw [normSqQ_cons]
    nlinarith [mul_self_nonneg x]

theorem normSqQ_pos (v : List ℚ) (h : ∃ x ∈ v, x ≠ 0) : 0 < normSqQ v := by
  induction v with
  | nil => simp at h
  | cons y l ih =>
    rw [normSqQ_cons]
    rcases h with ⟨x, hx, hxne⟩
    rcases List.mem_cons.1 hx with hx | hx
    · subst hx
      nlinarith [mul_self_pos.mpr hxne, normSqQ_nonneg l]
    · have := ih ⟨x, hx, hxne⟩
      nlinarith [mul_self_nonneg y]

theorem dotQ_cons (x y : ℚ) (xs ys : List ℚ) :
    dotQ (x :: xs) (y :: ys) = x * y + dotQ xs ys := by
  simp [dotQ]

theorem dotQ_self (v : List ℚ) : dotQ v v = normSqQ v := by
  induction v with
  | nil => rfl
  | cons x l ih => rw [dotQ_cons, normSqQ_cons, ih]

theorem cauchy_schwarz_listQ (a b : List ℚ) :
    (dotQ a b) ^ 2 ≤ normSqQ a * normSqQ b := by
  induction a generalizing b with
  | nil =>
    simp [dotQ, normSqQ]
  | cons x xs ih =>
    cases b with
    | nil =>
      have := normSqQ_nonneg (x :: xs)
      simp [dotQ, normSqQ]
    | cons y ys =>
      have hA := normSqQ_nonneg xs
      have hB := normSqQ_nonneg ys
      have hin := ih ys
      rw [dotQ_cons, normSqQ_cons, normSqQ_cons]
      by_cases hB0 : normSqQ ys = 0
      · have h1 : (dotQ xs ys) ^ 2 ≤ 0 := by nlinarith [hin]
        have h2 : (dotQ xs ys) ^ 2 = 0 := le_antisymm h1 (sq_nonneg _)
        have hd0 : dotQ xs ys = 0 := by
          exact sq_eq_zero_iff.mp h2
        rw [hd0, hB0]
        nlinarith [mul_nonneg hA (mul_self_nonneg y)]
      · have hBpos : 0 < normSqQ ys := lt_of_le_of_ne hB (Ne.symm hB0)
        nlinarith [sq_nonneg (x * normSqQ ys - y * dotQ xs ys),
          mul_nonneg (add_nonneg (mul_self_nonneg y) hB) (sub_nonneg.mpr hin), hBpos]

theorem cauchy_schwarz_real (a b : List ℚ) :
    (((dotQ a b : ℚ) : ℝ)) ^ 2 ≤ ((normSqQ a : ℚ) : ℝ) * ((normSqQ b : ℚ) : ℝ) := by
  exact_mod_cast cauchy_schwarz_listQ a b

theorem sqrt_normSq_eq_zero_iff (v : List ℚ) :
    Real.sqrt ((normSqQ v : ℚ) : ℝ) = 0 ↔ normSqQ v = 0 := by
  constructor
  · intro h
    have h1 : ((normSqQ v : ℚ) : ℝ) ≤ 0 := Real.sqrt_eq_zero'.mp h
    have h2 : (0 : ℝ) ≤ ((normSqQ v : ℚ) : ℝ) := by exact_mod_cast normSqQ_nonneg v
    have h3 : ((normSqQ v : ℚ) : ℝ) = 0 := le_antisymm h1 h2
    exact_mod_cast h3
  · intro h
    rw [h]
    simp

theorem cosVal_zero_norm (a b : List ℚ) (h : normSqQ a = 0 ∨ normSqQ b = 0) :
    cosVal a b = 0 := by
  unfold cosVal
  rw [if_pos]
  rcases h with h | h
  · exact Or.inl ((sqrt_normSq_eq_zero_iff a).mpr h)
  · exact Or.inr ((sqrt_normSq_eq_zero_iff b).mpr h)

theorem cosVal_bounds (a b : List ℚ) : -1 ≤ cosVal a b ∧ cosVal a b ≤ 1 := by
  unfold cosVal
  split_ifs with h
  · norm_num
  · push_neg at h
    have hA : 0 < Real.sqrt ((normSqQ a : ℚ) : ℝ) :=
      (Real.sqrt_nonneg _).lt_of_ne (Ne.symm h.1)
    have hB : 0 < Real.sqrt ((normSqQ b : ℚ) : ℝ) :=
      (Real.sqrt_nonneg _).lt_of_ne (Ne.symm h.2)
    have hden : 0 < Real.sqrt ((normSqQ a : ℚ) : ℝ) * Real.sqrt ((normSqQ b : ℚ) : ℝ) :=
      mul_pos hA hB
    have habs : |((dotQ a b : ℚ) : ℝ)| ≤
        Real.sqrt ((normSqQ a : ℚ) : ℝ) * Real.sqrt ((normSqQ b : ℚ) : ℝ) := by
      have h1 := Real.sqrt_le_sqrt (cauchy_schwarz_real a b)
      rw [Real.sqrt_sq_eq_abs,
        Real.sqrt_mul (by exact_mod_cast normSqQ_nonneg a)] at h1
      exact h1
    obtain ⟨hlo, hhi⟩ := abs_le.mp habs
    constructor
    · rw [le_div_iff₀ hden]
      linarith
    · rw [div_le_one hden]
      exact hhi

theorem cosVal_self (v : List ℚ) (h : ∃ x ∈ v, x ≠ 0) : cosVal v v = 1 := by
  have hpos : 0 < normSqQ v := normSqQ_pos v h
  have hne : normSqQ v ≠ 0 := ne_of_gt hpos
  have hs : Real.sqrt ((normSqQ v : ℚ) : ℝ) ≠ 0 := fun hc =>
    hne ((sqrt_normSq_eq_zero_iff v).mp hc)
  unfold cosVal
  rw [if_neg (by push_neg; exact ⟨hs, hs⟩), dotQ_self,
    Real.mul_self_sqrt (by exact_mod_cast normSqQ_nonneg v)]
  rw [div_self (by exact_mod_cast hne)]

/-- C7 counterexample: the vector `[0.0]` has zero norm, yet
`cosine_similarity([0.0], [1.0, 2.0])` raises (`np.dot` fails on 1-d
arrays of different lengths before the zero-norm guard is reached)
instead of returning `0.0` — the fail-closed guarantee does not cover
mismatched dimensionalities. -/
theorem cosine_mismatched_dims_raises :
    normSqQ [(0 : ℚ)] = 0 ∧
      cosine_similarity (some [(0 : ℚ)]) (some [1, 2]) = .error "shapes not aligned" ∧
      cosine_similarity (some [(0 : ℚ)]) (some [1, 2]) ≠ .ok 0 := by
  have h : cosine_similarity (some [(0 : ℚ)]) (some [1, 2]) = .error "shapes not aligned" := by
    unfold cosine_similarity
    norm_num
  refine ⟨by norm_num [normSqQ], h, ?_⟩
  rw [h]
  simp

/-- C7 amended: cosine similarity returns `0.0` and does not raise when
either input is absent, or when both are present with equal
dimensionality and either has zero norm (the empty vector included); for
two present nonzero vectors of equal dimensionality it returns a value in
`[-1, 1]`; and for any nonzero vector `v`, `similarity(v, v) = 1.0`.
(With unequal dimensionalities and both inputs present the call raises —
see `cosine_mismatched_dims_raises`.) -/
theorem cosine_similarity_properties :
    (∀ v, cosine_similarity none v = .ok 0 ∧ cosine_similarity v none = .ok 0) ∧
    (∀ a b : List ℚ, a.length = b.length → (normSqQ a = 0 ∨ normSqQ b = 0) →
      cosine_similarity (some a) (some b) = .ok 0) ∧
    (∀ a b : List ℚ, a.length = b.length → (∃ x ∈ a, x ≠ 0) → (∃ x ∈ b, x ≠ 0) →
      cosine_similarity (some a) (some b) = .ok (cosVal a b) ∧
        -1 ≤ cosVal a b ∧ cosVal a b ≤ 1) ∧
    (∀ v : List ℚ, (∃ x ∈ v, x ≠ 0) → cosine_similarity (some v) (some v) = .ok 1) := by
  have hstep : ∀ a b : List ℚ, cosine_similarity (some a) (some b) =
      if a.length ≠ b.length then .error "shapes not aligned" else .ok (cosVal a b) :=
    fun a b => rfl
  refine ⟨fun v => ⟨by cases v <;> rfl, by cases v <;> rfl⟩, ?_, ?_, ?_⟩
  · intro a b hlen hz
    rw [hstep, if_neg (by simp [hlen]), cosVal_zero_norm a b hz]
  · intro a b hlen _ _
    refine ⟨?_, cosVal_bounds a b⟩
    rw [hstep, if_neg (by simp [hlen])]
  · intro v hv
    rw [hstep, if_neg (by simp), cosVal_self v hv]

/-- Witness for C7: absent input, zero-norm pair `[0,0]` vs `[0,3]`,
orthogonal unit pair `[1,0]` vs `[0,1]`, and self-similarity of `[3,4]`. -/
theorem cosine_similarity_properties_witness :
    cosine_similarity none (some [(1 : ℚ)]) = .ok 0 ∧
      cosine_similarity (some [(0 : ℚ), 0]) (some [(0 : ℚ), 3]) = .ok 0 ∧
      (cosine_similarity (some [(1 : ℚ), 0]) (some [(0 : ℚ), 1]) =
          .ok (cosVal [(1 : ℚ), 0] [(0 : ℚ), 1]) ∧
        -1 ≤ cosVal [(1 : ℚ), 0] [(0 : ℚ), 1] ∧ cosVal [(1 : ℚ), 0] [(0 : ℚ), 1] ≤ 1) ∧
      cosine_similarity (some [(3 : ℚ), 4]) (some [(3 : ℚ), 4]) = .ok 1 :=
  ⟨(cosine_similarity_properties.1 (some [(1 : ℚ)])).1,
   cosine_similarity_properties.2.1 [0, 0] [0, 3] rfl (Or.inl (by norm_num [normSqQ])),
   cosine_similarity_properties.2.2.1 [1, 0] [0, 1] rfl
     ⟨1, by simp, by norm_num⟩ ⟨1, by simp, by norm_num⟩,
   cosine_similarity_properties.2.2.2 [3, 4] ⟨3, by simp, by norm_num⟩⟩

/-! ## Claim theorems: best match (C2) -/

/-- The pure value of `scanBest` once no comparison raises: running
best-match/best-score pair updated on strictly greater scores. -/
noncomputable def scanFold (qv : List ℚ) :
    List CaseRecord → Option CaseRecord × ℝ → Option CaseRecord × ℝ
  | [], acc => acc
  | e :: rest, (bm, bs) =>
    if cosVal qv e.embedding > bs then scanFold qv rest (some e, cosVal qv e.embedding)
    else scanFold qv rest (bm, bs)

theorem scanBest_eq_fold (qv : List ℚ) (entries : List CaseRecord)
    (hlen : ∀ e ∈ entries, e.embedding.length = qv.length)
    (acc : Option CaseRecord × ℝ) :
    scanBest (some qv) entries acc = .ok (scanFold qv entries acc) := by
  induction entries generalizing acc with
  | nil => rfl
  | cons e rest ih =>
    obtain ⟨bm, bs⟩ := acc
    have hc : cosine_similarity (some qv) (some e.embedding) =
        .ok (cosVal qv e.embedding) := by
      have hstep : cosine_similarity (some qv) (some e.embedding) =
          if qv.length ≠ e.embedding.length then .error "shapes not aligned"
          else .ok (cosVal qv e.embedding) := rfl
      rw [hstep, if_neg (by simp [hlen e (List.mem_cons_self e rest)])]
    have hrest : ∀ x ∈ rest, x.embedding.length = qv.length :=
      fun x hx => hlen x (List.mem_cons_of_mem e hx)
    simp only [scanBest, scanFold, hc]
    split_ifs with h <;> exact ih hrest _

theorem scanFold_fst_some (qv : List ℚ) (entries : List CaseRecord) :
    ∀ (e : CaseRecord) (bs : ℝ), ∃ e', (scanFold qv entries (some e, bs)).1 = some e' := by
  induction entries with
  | nil => exact fun e bs => ⟨e, rfl⟩
  | cons x rest ih =>
    intro e bs
    simp only [scanFold]
    split_ifs with h
    · exact ih x _
    · exact ih e bs

theorem scanFold_none_bound (qv : List ℚ) (entries : List CaseRecord) :
    ∀ bs : ℝ, (scanFold qv entries ((none : Option CaseRecord), bs)).1 = none →
      ∀ e ∈ entries, cosVal qv e.embedding ≤ bs := by
  induction entries with
  | nil =>
    intro bs _ e he
    simp at he
  | cons x rest ih =>
    intro bs h e he
    by_cases hgt : cosVal qv x.embedding > bs
    · exfalso
      rw [show scanFold qv (x :: rest) ((none : Option CaseRecord), bs) =
          scanFold qv rest (some x, cosVal qv x.embedding) from by
        simp only [scanFold]; rw [if_pos hgt]] at h
      obtain ⟨e', he'⟩ := scanFold_fst_some qv rest x (cosVal qv x.embedding)
      rw [he'] at h
      exact Option.noConfusion h
    · rw [show scanFold qv (x :: rest) ((none : Option CaseRecord), bs) =
          scanFold qv rest ((none : Option CaseRecord), bs) from by
        simp only [scanFold]; rw [if_neg hgt]] at h
      rcases List.mem_cons.1 he with he | he
      · subst he
        exact le_of_not_lt hgt
      · exact ih bs h e he

theorem scanFold_none_snd (qv : List ℚ) (entries : List CaseRecord) :
    ∀ bs : ℝ, (scanFold qv entries ((none : Option CaseRecord), bs)).1 = none →
      (scanFold qv entries ((none : Option CaseRecord), bs)).2 = bs := by
  induction entries with
  | nil => exact fun bs _ => rfl
  | cons x rest ih =>
    intro bs h
    by_cases hgt : cosVal qv x.embedding > bs
    · exfalso
      rw [show scanFold qv (x :: rest) ((none : Option CaseRecord), bs) =
          scanFold qv rest (some x, cosVal qv x.embedding) from by
        simp only [scanFold]; rw [if_pos hgt]] at h
      obtain ⟨e', he'⟩ := scanFold_fst_some qv rest x (cosVal qv x.embedding)
      rw [he'] at h
      exact Option.noConfusion h
    · rw [show scanFold qv (x :: rest) ((none : Option CaseRecord), bs) =
          scanFold qv rest ((none : Option CaseRecord), bs) from by
        simp only [scanFold]; rw [if_neg hgt]] at h ⊢
      exact ih bs h

theorem scanFold_snd_ge (qv : List ℚ) (entries : List CaseRecord) :
    ∀ (bm : Option CaseRecord) (bs : ℝ), bs ≤ (scanFold qv entries (bm, bs)).2 := by
  induction entries with
  | nil => exact fun bm bs => le_refl bs
  | cons x rest ih =>
    intro bm bs
    simp only [scanFold]
    split_ifs with h
    · exact le_trans (le_of_lt h) (ih _ _)
    · exact ih bm bs

theorem scanFold_snd_bound (qv : List ℚ) (entries : List CaseRecord) :
    ∀ (bm : Option CaseRecord) (bs : ℝ), ∀ e ∈ entries,
      cosVal qv e.embedding ≤ (scanFold qv entries (bm, bs)).2 := by
  induction entries with
  | nil =>
    intro bm bs e he
    simp at he
  | cons x rest ih =>
    intro bm bs e he
    simp only [scanFold]
    split_ifs with h
    · rcases List.mem_cons.1 he with he | he
      · subst he
        exact le_trans (le_refl _) (scanFold_snd_ge qv rest _ _)
      · exact ih _ _ e he
    · rcases List.mem_cons.1 he with he | he
      · subst he
        exact le_trans (le_of_not_lt h) (scanFold_snd_ge qv rest _ _)
      · exact ih _ _ e he

theorem scanFold_some_spec (qv : List ℚ) (entries : List CaseRecord) :
    ∀ (bm : Option CaseRecord) (bs : ℝ) (e₀ : CaseRecord),
      (scanFold qv entries (bm, bs)).1 = some e₀ →
      (bm = some e₀ ∧ scanFold qv entries (bm, bs) = (bm, bs) ∧
        ∀ e ∈ entries, cosVal qv e.embedding ≤ bs) ∨
      (∃ l₁ l₂, entries = l₁ ++ e₀ :: l₂ ∧ bs < cosVal qv e₀.embedding ∧
        (∀ e ∈ l₁, cosVal qv e.embedding < cosVal qv e₀.embedding) ∧
        (∀ e ∈ l₂, cosVal qv e.embedding ≤ cosVal qv e₀.embedding) ∧
        (scanFold qv entries (bm, bs)).2 = cosVal qv e₀.embedding) := by
  induction entries with
  | nil =>
    intro bm bs e₀ h
    exact Or.inl ⟨h, rfl, by simp⟩
  | cons x rest ih =>
    intro bm bs e₀ h
    by_cases hgt : cosVal qv x.embedding > bs
    · have hstep : scanFold qv (x :: rest) (bm, bs) =
          scanFold qv rest (some x, cosVal qv x.embedding) := by
        simp only [scanFold]; rw [if_pos hgt]
      rw [hstep] at h
      rcases ih (some x) (cosVal qv x.embedding) e₀ h with
        ⟨hbm, hfix, hall⟩ | ⟨l₁, l₂, hsplit, hlt, hl₁, hl₂, hsnd⟩
      · right
        have hx : x = e₀ := Option.some.inj hbm
        subst hx
        refine ⟨[], rest, by simp, hgt, by simp, hall, ?_⟩
        rw [hstep, hfix]
      · right
        refine ⟨x :: l₁, l₂, by rw [hsplit, List.cons_append], lt_trans hgt hlt, ?_, hl₂, ?_⟩
        · intro e he
          rcases List.mem_cons.1 he with he | he
          · subst he
            exact hlt
          · exact hl₁ e he
        · rw [hstep]
          exact hsnd
    · have hstep : scanFold qv (x :: rest) (bm, bs) = scanFold qv rest (bm, bs) := by
        simp only [scanFold]; rw [if_neg hgt]
      rw [hstep] at h
      rcases ih bm bs e₀ h with
        ⟨hbm, hfix, hall⟩ | ⟨l₁, l₂, hsplit, hlt, hl₁, hl₂, hsnd⟩
      · left
        refine ⟨hbm, by rw [hstep]; exact hfix, ?_⟩
        intro e he
        rcases List.mem_cons.1 he with he | he
        · subst he
          exact le_of_not_lt hgt
        · exact hall e he
      · right
        refine ⟨x :: l₁, l₂, by rw [hsplit, List.cons_append], hlt, ?_, hl₂,
          by rw [hstep]; exact hsnd⟩
        intro e he
        rcases List.mem_cons.1 he with he | he
        · subst he
          exact lt_of_le_of_lt (le_of_not_lt hgt) hlt
        · exact hl₁ e he

/-- A record whose embedding `[0, 1]` is orthogonal to the query `[1, 0]`,
used by the C2 counterexample. -/
def recOrth : CaseRecord :=
  { case_number := "C-O", text := "t", embedding := [0, 1]
    ai_root_cause := none, ai_resolution := none
    analyst_root_cause := none, analyst_resolution := none
    verified := false, reliability_score := 0.7, feedback_count := 0
    last_feedback_at := none }

theorem cosVal_orth : cosVal [(1 : ℚ), 0] [(0 : ℚ), 1] = 0 := by
  have hd : dotQ [(1 : ℚ), 0] [(0 : ℚ), 1] = 0 := by norm_num [dotQ]
  unfold cosVal
  rw [hd]
  split_ifs <;> simp

/-- C2 counterexample: with threshold `0.0`, a query `[1, 0]`, and one
candidate whose embedding `[0, 1]` scores exactly `0.0`, the maximum
observed cosine score (`0.0`) is NOT strictly below the threshold, yet
`find_most_similar_semantic` still reports no match (the running maximum
starts at `0.0` and only strictly greater scores are ever selected), so
the claim's "no match iff maximum observed score < threshold" fails. -/
theorem best_match_zero_threshold_counterexample :
    cosVal [(1 : ℚ), 0] recOrth.embedding = 0 ∧
      find_most_similar_semantic 0 (some [(1 : ℚ), 0]) [recOrth] = .ok (none, 0) ∧
      ¬ (cosVal [(1 : ℚ), 0] recOrth.embedding < 0) := by
  have hemb : recOrth.embedding = [(0 : ℚ), 1] := rfl
  have hcv : cosVal [(1 : ℚ), 0] recOrth.embedding = 0 := by rw [hemb]; exact cosVal_orth
  have hc : cosine_similarity (some [(1 : ℚ), 0]) (some recOrth.embedding) = .ok 0 := by
    have hstep : cosine_similarity (some [(1 : ℚ), 0]) (some recOrth.embedding) =
        if ([(1 : ℚ), 0]).length ≠ recOrth.embedding.length then .error "shapes not aligned"
        else .ok (cosVal [(1 : ℚ), 0] recOrth.embedding) := rfl
    rw [hstep, if_neg (by rw [hemb]; decide), hcv]
  refine ⟨hcv, ?_, by rw [hcv]; exact lt_irrefl 0⟩
  unfold find_most_similar_semantic
  rw [show scanBest (some [(1 : ℚ), 0]) [recOrth] ((none : Option CaseRecord), (0 : ℝ)) =
      .ok ((none : Option CaseRecord), (0 : ℝ)) from by
    simp only [scanBest, hc]
    rw [if_neg (lt_irrefl (0 : ℝ))]]
  norm_num

/-- C2 amended: provided the threshold is strictly positive (as the
shipped default `0.80` is) and every candidate embedding has the query's
dimensionality (so no comparison raises), `find_most_similar_semantic`
returns the no-match pair `(none, 0.0)` iff every candidate's cosine
score is strictly below the threshold; otherwise it returns the
highest-scoring candidate with its score, and when several candidates
attain the maximal score the first-encountered one is returned (every
earlier candidate scores strictly lower). -/
theorem best_match_characterization (threshold : ℝ) (qv : List ℚ)
    (entries : List CaseRecord) (hpos : 0 < threshold)
    (hlen : ∀ e ∈ entries, e.embedding.length = qv.length) :
    ∃ bm bs, find_most_similar_semantic threshold (some qv) entries = .ok (bm, bs) ∧
      ((bm = none ∧ bs = 0) ↔ ∀ e ∈ entries, cosVal qv e.embedding < threshold) ∧
      (∀ e₀, bm = some e₀ →
        e₀ ∈ entries ∧ bs = cosVal qv e₀.embedding ∧ threshold ≤ bs ∧
        (∀ e ∈ entries, cosVal qv e.embedding ≤ bs) ∧
        ∃ l₁ l₂, entries = l₁ ++ e₀ :: l₂ ∧
          ∀ e ∈ l₁, cosVal qv e.embedding < cosVal qv e₀.embedding) := by
  have hscan := scanBest_eq_fold qv entries hlen ((none : Option CaseRecord), (0 : ℝ))
  rcases hp : scanFold qv entries ((none : Option CaseRecord), (0 : ℝ)) with ⟨bm0, bs0⟩
  rw [hp] at hscan
  have hfind : find_most_similar_semantic threshold (some qv) entries =
      .ok (if bs0 ≥ threshold then (bm0, bs0) else ((none : Option CaseRecord), (0 : ℝ))) := by
    unfold find_most_similar_semantic
    rw [hscan]
  have hball : ∀ e ∈ entries, cosVal qv e.embedding ≤ bs0 := by
    intro e he
    have := scanFold_snd_bound qv entries (none : Option CaseRecord) (0 : ℝ) e he
    rw [hp] at this
    exact this
  by_cases hth : bs0 ≥ threshold
  · have hbs0pos : 0 < bs0 := lt_of_lt_of_le hpos hth
    have hbm0 : ∃ e₀, bm0 = some e₀ := by
      cases hbm : bm0 with
      | some e₀ => exact ⟨e₀, rfl⟩
      | none =>
        exfalso
        have h1 : (scanFold qv entries ((none : Option CaseRecord), (0 : ℝ))).1 = none := by
          rw [hp, hbm]
        have h2 := scanFold_none_snd qv entries 0 h1
        rw [hp] at h2
        exact absurd h2 (by simp; linarith)
    obtain ⟨e₀, hbm0⟩ := hbm0
    subst hbm0
    have hspec := scanFold_some_spec qv entries (none : Option CaseRecord) (0 : ℝ) e₀
      (by rw [hp])
    rcases hspec with ⟨habs, _, _⟩ | ⟨l₁, l₂, hsplit, _, hl₁, _, hsnd⟩
    · exact absurd habs (by simp)
    have hbs0eq : bs0 = cosVal qv e₀.embedding := by
      rw [hp] at hsnd
      exact hsnd
    have he₀mem : e₀ ∈ entries := by
      rw [hsplit]
      simp
    refine ⟨some e₀, bs0, by rw [hfind, if_pos hth], ?_, ?_⟩
    · constructor
      · intro hcontra
        exact absurd hcontra.1 (by simp)
      · intro hall
        exfalso
        have := hall e₀ he₀mem
        rw [← hbs0eq] at this
        linarith
    · intro e₁ he₁
      have he : e₀ = e₁ := Option.some.inj he₁
      subst he
      exact ⟨he₀mem, hbs0eq, hth, hball, l₁, l₂, hsplit, hl₁⟩
  · refine ⟨none, 0, by rw [hfind, if_neg hth], ?_, ?_⟩
    · constructor
      · intro _ e he
        exact lt_of_le_of_lt (hball e he) (lt_of_not_ge hth)
      · intro _
        exact ⟨rfl, rfl⟩
    · intro e₀ h
      exact absurd h (by simp)

/-- A record whose embedding equals the query `[1, 0]`, used by the C2
witness. -/
def recUnit : CaseRecord :=
  { case_number := "C-U", text := "t", embedding := [1, 0]
    ai_root_cause := none, ai_resolution := none
    analyst_root_cause := none, analyst_resolution := none
    verified := false, reliability_score := 0.7, feedback_count := 0
    last_feedback_at := none }

/-- Witness for C2 at threshold 0.8, query `[1, 0]`, one candidate with
the same embedding. -/
theorem best_match_characterization_witness :
    ∃ bm bs, find_most_similar_semantic 0.8 (some [(1 : ℚ), 0]) [recUnit] = .ok (bm, bs) ∧
      ((bm = none ∧ bs = 0) ↔
        ∀ e ∈ [recUnit], cosVal [(1 : ℚ), 0] e.embedding < 0.8) ∧
      (∀ e₀, bm = some e₀ →
        e₀ ∈ [recUnit] ∧ bs = cosVal [(1 : ℚ), 0] e₀.embedding ∧ (0.8 : ℝ) ≤ bs ∧
        (∀ e ∈ [recUnit], cosVal [(1 : ℚ), 0] e.embedding ≤ bs) ∧
        ∃ l₁ l₂, [recUnit] = l₁ ++ e₀ :: l₂ ∧
          ∀ e ∈ l₁, cosVal [(1 : ℚ), 0] e.embedding <
            cosVal [(1 : ℚ), 0] e₀.embedding) :=
  best_match_characterization 0.8 [(1 : ℚ), 0] [recUnit] (by norm_num)
    (by intro e he; rw [List.mem_singleton] at he; subst he; rfl)
